import Mathlib

/-!
# Verification of the derived-stats engine of the Foundry Character Vault viewer

This file is a shallow embedding, in Lean 4, of the derived-statistics and
armor-class computation of the static character-sheet viewer
(`src/unnamed/part_000`; `src/app.js` holds an earlier variant of the same
functions, identical on everything proved here except where noted).

Modelling conventions:

* JavaScript numbers are modelled as exact rationals (`ℚ`).  Parsed JSON can
  only hold finite numbers, so a document field never carries `NaN` or
  `Infinity`; internal coercions that can produce a non-finite number are
  modelled with `Option ℚ`, `none` standing for a non-finite result.
  Double-precision rounding and overflow are outside the model.
* A scalar document field is a `JSVal`; `JSVal.undef` stands for a missing
  field (a `?.` chain that fell through), `JSVal.objv` for a non-scalar value
  in a scalar position.
* Arrays whose entries the code null-checks are `List (Option _)`; a field
  that the code guards with `Array.isArray` is `Option (List _)`, with `none`
  for "missing or not an array".
* `Number(string)` is modelled for signed decimal literals with an optional
  fraction and exponent (the grammar the viewer's data exercises); other
  `Number` string forms (hex, `Infinity`, …) are mapped to `none`.
* Dynamic property lookup (`abilityMods[ability]`) is modelled as own-property
  lookup over the six ability keys.
-/

/- The executable arithmetic of `Rat` is `@[irreducible]` in Batteries; the
concrete evaluations below (`decide` on witness documents) need it to unfold. -/
set_option allowUnsafeReducibility true
attribute [semireducible] Rat.add Rat.sub Rat.mul Rat.div Rat.inv

set_option maxRecDepth 1000000
set_option maxHeartbeats 4000000

/-- `Rat.floor` (the executable floor the embedding computes with) agrees
with `Int.floor`. -/
theorem ratFloor_eq_intFloor (q : ℚ) : q.floor = ⌊q⌋ := by
  rw [Rat.floor_def', Rat.floor_def]

namespace FCV

/-- A scalar JavaScript value as it occurs in a parsed snapshot field. -/
inductive JSVal where
  | num (q : ℚ)
  | str (s : String)
  | bool (b : Bool)
  | null
  | undef
  | objv
deriving DecidableEq

/-- JS `v == null` (loose): `null` and `undefined` only. -/
def jsNullish : JSVal → Bool
  | .null => true
  | .undef => true
  | _ => false

/-- JS truthiness of a scalar value. -/
def jsTruthy : JSVal → Bool
  | .num q => q != 0
  | .str s => s != ""
  | .bool b => b
  | .null => false
  | .undef => false
  | .objv => true

/-- JS `a ?? b`: `b` when `a` is nullish, else `a`. -/
def nnOr (v dflt : JSVal) : JSVal := if jsNullish v then dflt else v

/-- The characters of the JS `StrWhiteSpace` / regex `\s` class (the common
members; both sets agree on everything this code meets). -/
def jsWhitespaceChar (c : Char) : Bool :=
  c == ' ' || c == '\t' || c == '\n' || c == '\x0b' || c == '\x0c' || c == '\r' ||
  c == '\u00A0' || c == '\u1680' || c == '\u2028' || c == '\u2029' ||
  c == '\u202F' || c == '\u205F' || c == '\u3000' || c == '\uFEFF' ||
  ('\u2000' <= c && c <= '\u200A')

/-- JS `String.prototype.trim`. -/
def jsTrim (s : String) : String :=
  ⟨((s.toList.dropWhile jsWhitespaceChar).reverse.dropWhile jsWhitespaceChar).reverse⟩

/-- Value of a list of decimal digit characters. -/
def digitsToNat (ds : List Char) : ℕ :=
  ds.foldl (fun a c => a * 10 + (c.toNat - 48)) 0

/-- Parse a trimmed, non-empty string as a JS numeric literal:
optional sign, decimal digits with an optional fraction and exponent.
`none` models a non-finite coercion result (`NaN`). -/
def parseJSNumber (cs0 : List Char) : Option ℚ :=
  let sgncs : ℚ × List Char :=
    match cs0 with
    | '+' :: t => (1, t)
    | '-' :: t => (-1, t)
    | _ => (1, cs0)
  let sgn := sgncs.1
  let cs1 := sgncs.2
  let ip := cs1.takeWhile Char.isDigit
  let cs2 := cs1.dropWhile Char.isDigit
  let fpcs : List Char × List Char :=
    match cs2 with
    | '.' :: t => (t.takeWhile Char.isDigit, t.dropWhile Char.isDigit)
    | _ => ([], cs2)
  let fp := fpcs.1
  let cs3 := fpcs.2
  if ip = [] ∧ fp = [] then none
  else
    let mant : ℚ := (digitsToNat ip : ℚ) + (digitsToNat fp : ℚ) / ((10 : ℚ) ^ fp.length)
    match cs3 with
    | [] => some (sgn * mant)
    | e :: t =>
      if e = 'e' ∨ e = 'E' then
        let esgnt : ℤ × List Char :=
          match t with
          | '+' :: t2 => (1, t2)
          | '-' :: t2 => (-1, t2)
          | _ => (1, t)
        let ed := esgnt.2.takeWhile Char.isDigit
        let rest := esgnt.2.dropWhile Char.isDigit
        if ed = [] ∨ rest ≠ [] then none
        else some (sgn * mant * (10 : ℚ) ^ (esgnt.1 * (digitsToNat ed : ℤ)))
      else none

/-- JS `Number(string)`: trim; empty string coerces to `0`. -/
def jsStringToNumber (s : String) : Option ℚ :=
  let cs := (jsTrim s).toList
  if cs = [] then some 0 else parseJSNumber cs

/-- JS `Number(v)` on a scalar, `none` for a non-finite result. -/
def jsToNumber : JSVal → Option ℚ
  | .num q => some q
  | .str s => jsStringToNumber s
  | .bool b => some (if b then 1 else 0)
  | .null => some 0
  | .undef => none
  | .objv => none

/-- Decimal digits of the proper fraction `r / d` (`r < d`), at most `fuel`
of them (exact for every terminating expansion that fits). -/
def fracDigitChars : ℕ → ℕ → ℕ → List Char
  | 0, _, _ => []
  | _, 0, _ => []
  | fuel + 1, r, d =>
    Char.ofNat (48 + r * 10 / d) :: fracDigitChars fuel (r * 10 % d) d

/-- JS `String(n)` for a number: exact for integers and terminating decimal
expansions (the only values the snapshot arithmetic produces). -/
def ratToString (q : ℚ) : String :=
  let sign := if q < 0 then "-" else ""
  let n := q.num.natAbs
  let d := q.den
  let ip := n / d
  let r := n % d
  if r = 0 then sign ++ Nat.repr ip
  else sign ++ Nat.repr ip ++ "." ++ ⟨fracDigitChars 40 r d⟩

/-- JS `String(v)` / `.toString()` on a scalar. -/
def jsToString : JSVal → String
  | .num q => ratToString q
  | .str s => s
  | .bool b => if b then "true" else "false"
  | .null => "null"
  | .undef => "undefined"
  | .objv => "[object Object]"

/-- `safeText` of the source: `(s ?? "").toString()`. -/
def safeText (v : JSVal) : String :=
  if jsNullish v then "" else jsToString v

/-- The match list of the regex `/[+-]?\d+/g`: every signed integer substring,
leftmost first, greedy, non-overlapping. -/
def scanSignedInts : ℕ → List Char → List ℤ
  | 0, _ => []
  | _, [] => []
  | fuel + 1, c :: rest =>
    if c.isDigit then
      let ds := (c :: rest).takeWhile Char.isDigit
      (digitsToNat ds : ℤ) :: scanSignedInts fuel ((c :: rest).dropWhile Char.isDigit)
    else if (c == '+' || c == '-') && (match rest with | d :: _ => d.isDigit | [] => false) then
      let ds := rest.takeWhile Char.isDigit
      (if c = '-' then -(digitsToNat ds : ℤ) else (digitsToNat ds : ℤ)) ::
        scanSignedInts fuel (rest.dropWhile Char.isDigit)
    else scanSignedInts fuel rest

/-- Sum of every signed integer substring of the character list (the
`match`/`map(Number)`/`reduce` pipeline of `parseFlatBonus`; the JS
`filter(Number.isFinite)` step only drops integers beyond double range,
which the exact model has no need of). -/
def sumSignedInts (cs : List Char) : ℚ :=
  ((scanSignedInts (cs.length + 1) cs).sum : ℤ)

/-- The test of the regex `/[dD]\d/`: the letter `d` (either case)
immediately followed by a decimal digit, anywhere in the string. -/
def containsDice : List Char → Bool
  | c :: d :: rest =>
    ((c == 'd' || c == 'D') && d.isDigit) || containsDice (d :: rest)
  | _ => false

/-- `parseFlatBonus` of the source: a finite number is returned as is;
a string is rejected (0) when it holds a dice pattern, otherwise the
signed integer substrings are summed; everything else degrades to 0. -/
def parseFlatBonus (v : JSVal) : ℚ :=
  if jsNullish v then 0
  else
    match v with
    | .num q => q
    | v =>
      let cs := (jsTrim (jsToString v)).toList
      if cs = [] then 0
      else if containsDice cs then 0
      else sumSignedInts cs

/-- `abilityMod` of the source: `Math.floor((Number(score) - 10) / 2)`,
`0` when the coercion is non-finite. -/
def abilityMod (score : JSVal) : ℚ :=
  match jsToNumber score with
  | none => 0
  | some s => (((s - 10) / 2).floor : ℚ)

/-- `proficiencyBonus` of the source: `2 + Math.floor((l - 1) / 4)` for a
finite positive level, else `0`. -/
def proficiencyBonus (level : JSVal) : ℚ :=
  match jsToNumber level with
  | none => 0
  | some l => if l ≤ 0 then 0 else 2 + (((l - 1) / 4).floor : ℚ)

/-- `profComponent` of the source: rank `0.5` gives `floor(prof / 2)`,
`1` gives `prof`, `2` gives `2 * prof`, any other positive rank gives
`floor(rank * prof)`; non-positive or non-finite ranks give `0`. -/
def profComponent (rank : JSVal) (prof : ℚ) : ℚ :=
  match jsToNumber (nnOr rank (.num 0)) with
  | none => 0
  | some r =>
    if r ≤ 0 then 0
    else if r = 1 / 2 then ((prof / 2).floor : ℚ)
    else if r = 1 then prof
    else if r = 2 then 2 * prof
    else ((r * prof).floor : ℚ)


/-! ## The document model

Only the fields the derived-stats engine reads are modelled; a missing or
mistyped sub-object is the record with every field `JSVal.undef`, which is
exactly how the source's defensive `?.` / `|| {}` lookups behave. -/

/-- `system.attributes.ac` of an actor (`calc` is a Lean keyword, hence
`calcMode`). -/
structure ACBlock where
  value : JSVal := .undef
  flat : JSVal := .undef
  calcMode : JSVal := .undef
  formula : JSVal := .undef
  bonus : JSVal := .undef
deriving DecidableEq

/-- One `abilities.<abl>` entry: only `.value` is read. -/
structure AbilityScore where
  value : JSVal := .undef
deriving DecidableEq

/-- `system.abilities`. -/
structure Abilities where
  str : AbilityScore := {}
  dex : AbilityScore := {}
  con : AbilityScore := {}
  int : AbilityScore := {}
  wis : AbilityScore := {}
  cha : AbilityScore := {}
deriving DecidableEq

/-- `skills.<k>.bonuses`. -/
structure SkillBonuses where
  check : JSVal := .undef
  passive : JSVal := .undef
deriving DecidableEq

/-- One `system.skills` entry. -/
structure Skill where
  ability : JSVal := .undef
  value : JSVal := .undef
  bonuses : SkillBonuses := {}
deriving DecidableEq

/-- `system.bonuses.abilities`. -/
structure BonusesAbilities where
  skill : JSVal := .undef
deriving DecidableEq

/-- `system.bonuses.skills`. -/
structure BonusesSkills where
  check : JSVal := .undef
  passive : JSVal := .undef
deriving DecidableEq

/-- `system.bonuses.ac`. -/
structure BonusesAC where
  value : JSVal := .undef
  bonus : JSVal := .undef
  all : JSVal := .undef
deriving DecidableEq

/-- `system.bonuses`. -/
structure Bonuses where
  abilities : BonusesAbilities := {}
  skills : BonusesSkills := {}
  ac : BonusesAC := {}
deriving DecidableEq

/-- `system.details`: only `.level` is read here. -/
structure Details where
  level : JSVal := .undef
deriving DecidableEq

/-- `system.attributes`: only `.ac` is read here. -/
structure Attributes where
  ac : ACBlock := {}
deriving DecidableEq

/-- One entry of an active effect's `changes` array. -/
structure Change where
  key : JSVal := .undef
  mode : JSVal := .undef
  value : JSVal := .undef
deriving DecidableEq

/-- An active effect.  `flagsDaeTransfer` flattens the `flags?.dae?.transfer`
chain (a missing link and an `undefined` leaf are indistinguishable to the
code).  `changes` is `none` when missing or not an array. -/
structure Effect where
  disabled : JSVal := .undef
  transfer : JSVal := .undef
  flagsDaeTransfer : JSVal := .undef
  changes : Option (List (Option Change)) := none
deriving DecidableEq

/-- `item.system.armor` (flattened; a missing block is all-`undef`). -/
structure ArmorBlock where
  value : JSVal := .undef
  dex : JSVal := .undef
  magicalBonus : JSVal := .undef
  magicBonus : JSVal := .undef
deriving DecidableEq

/-- `item.system.type`: only `.value` is read. -/
structure ItemTypeField where
  value : JSVal := .undef
deriving DecidableEq

/-- `item.system`. -/
structure ItemSystem where
  equipped : JSVal := .undef
  attunement : JSVal := .undef
  armor : ArmorBlock := {}
  magicalBonus : JSVal := .undef
  magicBonus : JSVal := .undef
  type : ItemTypeField := {}
  levels : JSVal := .undef
deriving DecidableEq

/-- An owned item; `effects` is `none` when missing or not an array. -/
structure Item where
  type : JSVal := .undef
  system : ItemSystem := {}
  effects : Option (List (Option Effect)) := none
deriving DecidableEq

/-- `system` of an actor. -/
structure ActorSystem where
  abilities : Abilities := {}
  skills : List (String × Skill) := []
  bonuses : Bonuses := {}
  attributes : Attributes := {}
  details : Details := {}
deriving DecidableEq

/-- The character document with its `items` field already array-valued (with
nullable entries, as the source null-checks them).  The source never
`Array.isArray`-guards `items`, so a document whose `items` is a truthy
non-array value crashes in `items.filter` / `for..of`; `ActorDoc` below
carries that raw field, and `Actor` is its non-crashing projection. -/
structure Actor where
  system : ActorSystem := {}
  items : List (Option Item) := []
  effects : Option (List (Option Effect)) := none
deriving DecidableEq

/-- Property read on a JS object modelled as a key-value list: the LAST
binding of a key wins (later assignments shadow earlier ones). -/
def jsObjGet {A : Type} : List (String × A) → String → Option A
  | [], _ => none
  | p :: rest, k =>
    match jsObjGet rest k with
    | some v => some v
    | none => if p.1 = k then some p.2 else none

/-! ## Active-effect collection and AC extraction -/

/-- `AE_MODES.ADD` of the source. -/
def AE_MODES_ADD : ℚ := 2

/-- `AE_MODES.OVERRIDE` of the source. -/
def AE_MODES_OVERRIDE : ℚ := 5

/-- `isItemActiveForBonuses` of the source: equipped, or attunement state
coercing to the sentinel `2`. -/
def isItemActiveForBonuses (oit : Option Item) : Bool :=
  let s := (oit.map Item.system).getD {}
  let equipped := jsTruthy s.equipped
  let attuned := jsToNumber (nnOr s.attunement (.num 0)) = some 2
  equipped || attuned

/-- The filter of the item-effect loop in `collectTransferEffects`:
`if (!ef || ef.disabled) continue;` then the transfer flag test. -/
def keepTransferEffect : Option Effect → Bool
  | none => false
  | some ef =>
    !jsTruthy ef.disabled && (jsTruthy ef.transfer || jsTruthy ef.flagsDaeTransfer)

/-- The effects one item contributes in `collectTransferEffects`. -/
def itemTransferEffects (oit : Option Item) : List (Option Effect) :=
  if isItemActiveForBonuses oit then
    match oit with
    | some it =>
      match it.effects with
      | some l => l.filter keepTransferEffect
      | none => []
    | none => []
  else []

/-- `collectTransferEffects` of the source: the actor's own effects array is
pushed wholesale (no `disabled` filtering), then each active item's
non-disabled transfer-flagged effects. -/
def collectTransferEffects (a : Actor) : List (Option Effect) :=
  (a.effects.getD []) ++ (a.items.map itemTransferEffects).flatten

/-- ASCII lower-casing of one character (the case-insensitive `/i` flags
here only ever have to fold ASCII letters). -/
def asciiLower (c : Char) : Char :=
  if 'A' ≤ c && c ≤ 'Z' then Char.ofNat (c.toNat + 32) else c

/-- `keyRaw.replace(/^data\./, "system.")` of the source. -/
def normalizeKey (k : String) : String :=
  if "data.".toList.isPrefixOf k.toList then ⟨"system.".toList ++ k.toList.drop 5⟩ else k

/-- Case-insensitive suffix test (the `$`-anchored `/i` regexes reduce to
this). -/
def endsWithCI (k pat : String) : Bool :=
  (pat.toList.map asciiLower).isSuffixOf (k.toList.map asciiLower)

/-- The test of `/system\.attributes\.ac\.(value|flat)$/i`. -/
def isACValueKey (k : String) : Bool :=
  endsWithCI k "system.attributes.ac.value" || endsWithCI k "system.attributes.ac.flat"

/-- The test of `/system\.attributes\.ac\.bonus$/i`. -/
def isACBonusKey (k : String) : Bool :=
  endsWithCI k "system.attributes.ac.bonus"

/-- `Number(ch?.mode ?? AE_MODES.CUSTOM)` of the source. -/
def acChangeMode (ch : Change) : Option ℚ :=
  jsToNumber (nnOr ch.mode (.num 0))

/-- The running state of `extractACFromEffects`. -/
structure ACEffects where
  add : ℚ
  override : Option ℚ
deriving DecidableEq

/-- One iteration of the inner `changes` loop of `extractACFromEffects`. -/
def applyACChange (st : ACEffects) (och : Option Change) : ACEffects :=
  match och with
  | none => st
  | some ch =>
    let keyRaw := safeText ch.key
    if keyRaw = "" then st
    else
      let key := normalizeKey keyRaw
      let mode := acChangeMode ch
      let val := parseFlatBonus ch.value
      if isACValueKey key then
        if mode = some AE_MODES_OVERRIDE then { st with override := some val }
        else if mode = some AE_MODES_ADD then { st with add := st.add + val }
        else st
      else if isACBonusKey key then
        if mode = some AE_MODES_ADD then { st with add := st.add + val }
        else if mode = some AE_MODES_OVERRIDE then { st with add := val }
        else st
      else st

/-- One iteration of the outer effect loop of `extractACFromEffects`
(`ef?.changes` must be an array, else the effect is skipped). -/
def applyACEffect (st : ACEffects) (oef : Option Effect) : ACEffects :=
  match oef with
  | none => st
  | some ef =>
    match ef.changes with
    | none => st
    | some chs => chs.foldl applyACChange st

/-- `extractACFromEffects` of the source. -/
def extractACFromEffects (a : Actor) : ACEffects :=
  (collectTransferEffects a).foldl applyACEffect { add := 0, override := none }

/-! ## Armor parts -/

/-- `Number.isFinite(x)` on a document value: only an actual (finite) number
passes — no coercion. -/
def isFiniteNum : JSVal → Bool
  | .num _ => true
  | _ => false

/-- `Number(x)` where `x` is known to be a finite number (guarded by
`Number.isFinite` in the source). -/
def jsNumOr0 : JSVal → ℚ
  | .num q => q
  | _ => 0

/-- `getArmorMagicBonus` of the source: first non-nullish of the four magical
bonus fields, numeric-coerced, `NaN` degrading to 0 (`Number(v) || 0`). -/
def getArmorMagicBonus (it : Item) : ℚ :=
  let a := it.system.armor
  let v := nnOr a.magicalBonus (nnOr a.magicBonus
    (nnOr it.system.magicalBonus (nnOr it.system.magicBonus (.num 0))))
  (jsToNumber v).getD 0

/-- The `equipped` filter of `computeACArmorParts`
(`items.filter((i) => !!i?.system?.equipped)`). -/
def equippedItems (a : Actor) : List Item :=
  a.items.filterMap fun oi =>
    match oi with
    | some it => if jsTruthy it.system.equipped then some it else none
    | none => none

/-- An equipped armour candidate: `type === "equipment"`, a finite numeric
`armor.value`, and not a shield. -/
def isArmourItem (it : Item) : Bool :=
  it.type = JSVal.str "equipment" && isFiniteNum it.system.armor.value &&
    !(it.system.type.value = JSVal.str "shield")

/-- An equipped shield: `type === "equipment"`, a finite numeric
`armor.value`, and `system.type.value === "shield"`. -/
def isShieldItem (it : Item) : Bool :=
  it.type = JSVal.str "equipment" && isFiniteNum it.system.armor.value &&
    it.system.type.value = JSVal.str "shield"

/-- `Number(i?.system?.armor?.value ?? 0)`, `NaN` degrading to 0 (the armour
filters guarantee a finite number here). -/
def armourBaseValue (it : Item) : ℚ :=
  (jsToNumber (nnOr it.system.armor.value (.num 0))).getD 0

/-- The sort key `base + magic` of `computeACArmorParts`. -/
def armourScore (it : Item) : ℚ :=
  armourBaseValue it + getArmorMagicBonus it

/-- `sort((a, b) => b.total - a.total)[0]` over a stable sort: the earliest
element of maximal score. -/
def pickBestArmour (l : List Item) : Option Item :=
  l.foldl
    (fun acc it =>
      match acc with
      | none => some it
      | some b => if armourScore b < armourScore it then some it else acc)
    none

/-- The result record of `computeACArmorParts`. -/
structure ArmorParts where
  bestArmour : Option Item
  armourTotal : ℚ
  shieldTotal : ℚ
  acArmor : ℚ
deriving DecidableEq

/-- `computeACArmorParts` of the source. -/
def computeACArmorParts (a : Actor) : ArmorParts :=
  let equipped := equippedItems a
  let armours := equipped.filter isArmourItem
  let shields := equipped.filter isShieldItem
  let bestArmour := pickBestArmour armours
  let armourBase : ℚ :=
    match bestArmour with
    | some it => jsNumOr0 it.system.armor.value
    | none => 10
  let armourMagic : ℚ :=
    match bestArmour with
    | some it => getArmorMagicBonus it
    | none => 0
  let armourTotal := armourBase + armourMagic
  let shieldTotal := shields.foldl (fun acc s => acc + armourBaseValue s + getArmorMagicBonus s) 0
  { bestArmour, armourTotal, shieldTotal, acArmor := armourTotal + shieldTotal }

/-! ## The bounded formula evaluator -/

/-- One character is admitted by the safety regex `/^[0-9+\-*\/().\s]+$/`. -/
def exprSafeChar (c : Char) : Bool :=
  c.isDigit || c == '+' || c == '-' || c == '*' || c == '/' ||
  c == '(' || c == ')' || c == '.' || jsWhitespaceChar c

/-- The safety check before evaluation: non-empty and every character
admitted. -/
def exprSafe (s : String) : Bool :=
  !(s.toList = []) && s.toList.all exprSafeChar

/-- Tokens of the arithmetic sub-language.  `other` stands for the lexemes
the JS engine would lex here but that cannot appear in a valid pure
arithmetic expression of this grammar — `++`, `--`, a bare `.` — plus `**`
(exponentiation, which the model does not support); a token list holding
`other` never parses, matching the `SyntaxError` the source catches. -/
inductive ATok where
  | num (q : ℚ)
  | plus
  | minus
  | star
  | slash
  | lparen
  | rparen
  | other
deriving DecidableEq

/-- Lexer for the safe character set (maximal munch, JS numeric literals
read as decimal). -/
def lexArith : ℕ → List Char → Option (List ATok)
  | _, [] => some []
  | 0, _ => none
  | fuel + 1, c :: rest =>
    if jsWhitespaceChar c then lexArith fuel rest
    else if c.isDigit then
      let ds := (c :: rest).takeWhile Char.isDigit
      let after := (c :: rest).dropWhile Char.isDigit
      match after with
      | '.' :: t =>
        let fs := t.takeWhile Char.isDigit
        (lexArith fuel (t.dropWhile Char.isDigit)).map
          (ATok.num ((digitsToNat ds : ℚ) + (digitsToNat fs : ℚ) / (10 : ℚ) ^ fs.length) :: ·)
      | _ => (lexArith fuel after).map (ATok.num (digitsToNat ds : ℚ) :: ·)
    else if c = '.' then
      match rest with
      | d :: _ =>
        if d.isDigit then
          let fs := rest.takeWhile Char.isDigit
          (lexArith fuel (rest.dropWhile Char.isDigit)).map
            (ATok.num ((digitsToNat fs : ℚ) / (10 : ℚ) ^ fs.length) :: ·)
        else (lexArith fuel rest).map (ATok.other :: ·)
      | [] => some [ATok.other]
    else if c = '+' then
      match rest with
      | '+' :: t => (lexArith fuel t).map (ATok.other :: ·)
      | _ => (lexArith fuel rest).map (ATok.plus :: ·)
    else if c = '-' then
      match rest with
      | '-' :: t => (lexArith fuel t).map (ATok.other :: ·)
      | _ => (lexArith fuel rest).map (ATok.minus :: ·)
    else if c = '*' then
      match rest with
      | '*' :: t => (lexArith fuel t).map (ATok.other :: ·)
      | _ => (lexArith fuel rest).map (ATok.star :: ·)
    else if c = '/' then (lexArith fuel rest).map (ATok.slash :: ·)
    else if c = '(' then (lexArith fuel rest).map (ATok.lparen :: ·)
    else if c = ')' then (lexArith fuel rest).map (ATok.rparen :: ·)
    else none

mutual

/-- `expr := term (("+" | "-") term)*` -/
def pExpr : ℕ → List ATok → Option (ℚ × List ATok)
  | 0, _ => none
  | f + 1, ts =>
    match pTerm f ts with
    | some (v, rest) => pExprTail f v rest
    | none => none

/-- Left-associated additive tail. -/
def pExprTail : ℕ → ℚ → List ATok → Option (ℚ × List ATok)
  | 0, _, _ => none
  | f + 1, acc, ts =>
    match ts with
    | .plus :: t =>
      (match pTerm f t with
       | some (v, r) => pExprTail f (acc + v) r
       | none => none)
    | .minus :: t =>
      (match pTerm f t with
       | some (v, r) => pExprTail f (acc - v) r
       | none => none)
    | _ => some (acc, ts)

/-- `term := unary (("*" | "/") unary)*`; division by zero is a non-finite
result, reported as failure. -/
def pTerm : ℕ → List ATok → Option (ℚ × List ATok)
  | 0, _ => none
  | f + 1, ts =>
    match pUnary f ts with
    | some (v, rest) => pTermTail f v rest
    | none => none

/-- Left-associated multiplicative tail. -/
def pTermTail : ℕ → ℚ → List ATok → Option (ℚ × List ATok)
  | 0, _, _ => none
  | f + 1, acc, ts =>
    match ts with
    | .star :: t =>
      (match pUnary f t with
       | some (v, r) => pTermTail f (acc * v) r
       | none => none)
    | .slash :: t =>
      (match pUnary f t with
       | some (v, r) => if v = 0 then none else pTermTail f (acc / v) r
       | none => none)
    | _ => some (acc, ts)

/-- `unary := ("+" | "-") unary | number | "(" expr ")"`. -/
def pUnary : ℕ → List ATok → Option (ℚ × List ATok)
  | 0, _ => none
  | f + 1, ts =>
    match ts with
    | .plus :: t => pUnary f t
    | .minus :: t => (pUnary f t).map (fun vr => (-vr.1, vr.2))
    | .num q :: t => some (q, t)
    | .lparen :: t =>
      (match pExpr f t with
       | some (v, .rparen :: r) => some (v, r)
       | _ => none)
    | _ => none

end

/-- Evaluation of a substituted formula, `none` for anything the source's
`try { Function(...) } / Number.isFinite` pipeline would reject: a syntax
error, or a division by zero (whose JS result is non-finite and fails the
finiteness check; a non-finite intermediate that JS re-absorbs, such as
`1/(1/0)`, is also failure here). -/
def evalArith (s : String) : Option ℚ :=
  match lexArith (s.length + 1) s.toList with
  | none => none
  | some ts =>
    match pExpr (8 * ts.length + 8) ts with
    | some (v, []) => some v
    | _ => none

/-- `haystack.includes(needle)` over character lists. -/
def strContains : List Char → List Char → Bool
  | [], pat => pat = []
  | s@(_ :: t), pat => pat.isPrefixOf s || strContains t pat

/-- `s.includes(pat)`. -/
def jsIncludes (s pat : String) : Bool :=
  strContains s.toList pat.toList

/-- `s.split(pat).join(rep)`: leftmost, non-overlapping global replacement
(`pat` is never empty where the source uses this). -/
def replaceAllGo (pat rep : List Char) : ℕ → List Char → List Char
  | 0, s => s
  | fuel + 1, s =>
    match s with
    | [] => []
    | c :: t =>
      if !(pat = []) && pat.isPrefixOf s then
        rep ++ replaceAllGo pat rep fuel (s.drop pat.length)
      else c :: replaceAllGo pat rep fuel t

/-- JS `expr.split(token).join(value)`. -/
def jsReplaceAll (s pat rep : String) : String :=
  ⟨replaceAllGo pat.toList rep.toList (s.length + 1) s.toList⟩


/-! ## Derived stats (`dnd5eDerived`) -/

/-- The six computed ability modifiers. -/
structure AbilityMods where
  str : ℚ
  dex : ℚ
  con : ℚ
  int : ℚ
  wis : ℚ
  cha : ℚ
deriving DecidableEq

/-- The members a plain object literal inherits from `Object.prototype`
(with the Annex B accessors, present in web engines): bracket access with
any of these names yields a non-null value, so the source's
`abilityMods[ability] != null` guard passes them through. -/
def objectProtoMembers : List String :=
  ["constructor", "hasOwnProperty", "isPrototypeOf", "propertyIsEnumerable",
   "toLocaleString", "toString", "valueOf", "__proto__",
   "__defineGetter__", "__defineSetter__", "__lookupGetter__", "__lookupSetter__"]

/-- What `ability && abilityMods[ability] != null ? abilityMods[ability] : 0`
binds as `base`: one of the six own modifiers; a member inherited from
`Object.prototype` (never null, so the `!= null` guard passes it); or the
guard's 0 — a falsy key, or a name with no own or inherited property. -/
inductive AbilityBase where
  | mod (q : ℚ)
  | inherited (member : String)
  | absent
deriving DecidableEq

/-- The numeric value of a guard result that is not an inherited member
(an inherited member is non-numeric; this accessor is only meaningful on
the other two cases). -/
def abilityBaseQ : AbilityBase → ℚ
  | .mod q => q
  | .inherited _ => 0
  | .absent => 0

/-- `abilityMods[ability]` with the full JS property lookup: the six own
keys, then the prototype chain (`Object.prototype`'s members, all
non-null), then `undefined`. -/
def skillAbilityBase (mods : AbilityMods) (ability : JSVal) : AbilityBase :=
  if jsTruthy ability then
    let k := jsToString ability
    if k = "str" then .mod mods.str
    else if k = "dex" then .mod mods.dex
    else if k = "con" then .mod mods.con
    else if k = "int" then .mod mods.int
    else if k = "wis" then .mod mods.wis
    else if k = "cha" then .mod mods.cha
    else if objectProtoMembers.contains k then .inherited k
    else .absent
  else .absent

/-- One value of `skillTotals[k]` (and of `passivePrc`): a number in the
normal case; a string when a prototype-chain leak turned `base + profPart +
bonus` into JS string concatenation.  `str s` is a fully determined string
(`String(Object.prototype)` is exactly `"[object Object]"`); `nativeFunStr
pre member tail` stands for `pre ++ t ++ tail` where `t` is the source text
of the inherited native function `member` — ECMAScript pins that text only
to the NativeFunction grammar, so the model keeps it symbolic rather than
copying one engine's output. -/
inductive SkillTotalVal where
  | num (q : ℚ)
  | str (s : String)
  | nativeFunStr (pre : String) (member : String) (tail : String)
deriving DecidableEq

/-- The record `dnd5eDerived` returns. -/
structure Derived where
  level : ℚ
  prof : ℚ
  abilityMods : AbilityMods
  skillTotals : List (String × SkillTotalVal)
  passivePrc : SkillTotalVal
deriving DecidableEq

/-- `totalLevel` of the source: the class-item level sum (NaN-poisoned when a
level fails to coerce), `|| details.level || 0`. -/
def totalLevel (a : Actor) : ℚ :=
  let classes := a.items.filter fun oi =>
    (oi.map Item.type).getD .undef = JSVal.str "class"
  let lvl : Option ℚ := classes.foldl
    (fun acc oi =>
      match acc, jsToNumber (nnOr ((oi.map (Item.system · |>.levels)).getD .undef) (.num 0)) with
      | some s, some l => some (s + l)
      | _, _ => none)
    (some 0)
  let fromDetails : ℚ :=
    match jsToNumber (nnOr a.system.details.level (.num 0)) with
    | some q => q
    | none => 0
  match lvl with
  | some q => if q = 0 then fromDetails else q
  | none => fromDetails

/-- One `skillTotals[k]` assignment of `dnd5eDerived`:
`base + profPart + bonus`.  With a numeric (or guarded-to-0) base this is a
number; with a leaked inherited base, JS `+` associates left and
concatenates, giving `String(base) ++ String(profPart) ++ String(bonus)`. -/
def skillTotal (a : Actor) (mods : AbilityMods) (prof : ℚ) (sk : Skill) : SkillTotalVal :=
  let profPart := profComponent sk.value prof
  let bonus :=
    parseFlatBonus sk.bonuses.check
    + parseFlatBonus a.system.bonuses.abilities.skill
    + parseFlatBonus a.system.bonuses.skills.check
  match skillAbilityBase mods sk.ability with
  | .mod q => .num (q + profPart + bonus)
  | .absent => .num (0 + profPart + bonus)
  | .inherited m =>
    if m = "__proto__" then
      .str ("[object Object]" ++ ratToString profPart ++ ratToString bonus)
    else
      .nativeFunStr "" m (ratToString profPart ++ ratToString bonus)

/-- The source's `10 + (skillTotals?.prc ?? 0) + parseFlatBonus(...) +
parseFlatBonus(...)`: JS `+` associates left, so a string perception total
turns the whole passive-perception expression into concatenation. -/
def passivePrcVal (t : SkillTotalVal) (p1 p2 : ℚ) : SkillTotalVal :=
  match t with
  | .num q => .num (10 + q + p1 + p2)
  | .str s => .str ("10" ++ s ++ ratToString p1 ++ ratToString p2)
  | .nativeFunStr pre m tail =>
    .nativeFunStr ("10" ++ pre) m (tail ++ ratToString p1 ++ ratToString p2)

/-- `dnd5eDerived` of the source. -/
def dnd5eDerived (a : Actor) : Derived :=
  let level := totalLevel a
  let prof := proficiencyBonus (.num level)
  let mods : AbilityMods :=
    { str := abilityMod a.system.abilities.str.value
      dex := abilityMod a.system.abilities.dex.value
      con := abilityMod a.system.abilities.con.value
      int := abilityMod a.system.abilities.int.value
      wis := abilityMod a.system.abilities.wis.value
      cha := abilityMod a.system.abilities.cha.value }
  let skillTotals := a.system.skills.map fun p => (p.1, skillTotal a mods prof p.2)
  let passivePrc :=
    passivePrcVal ((jsObjGet skillTotals "prc").getD (.num 0))
      (parseFlatBonus (((jsObjGet a.system.skills "prc").map
        (fun sk => sk.bonuses.passive)).getD JSVal.undef))
      (parseFlatBonus a.system.bonuses.skills.passive)
  { level, prof, abilityMods := mods, skillTotals, passivePrc }

/-! ## `computeAC` -/

/-- `bestArmour ? bestArmour?.system?.armor?.dex : null` of the source. -/
def acDexCap (a : Actor) : JSVal :=
  match (computeACArmorParts a).bestArmour with
  | some it => it.system.armor.dex
  | none => .null

/-- The capped Dex contribution:
`dexCap == null || dexCap === "" ? dexFull : Math.min(dexFull, Number(dexCap) || 0)`. -/
def acDexCapped (dexFull : ℚ) (cap : JSVal) : ℚ :=
  if jsNullish cap || cap = JSVal.str "" then dexFull
  else min dexFull ((jsToNumber cap).getD 0)

/-- The four flat system AC bonus fields of `computeAC`. -/
def acSysBonus (a : Actor) : ℚ :=
  parseFlatBonus a.system.attributes.ac.bonus
  + parseFlatBonus a.system.bonuses.ac.value
  + parseFlatBonus a.system.bonuses.ac.bonus
  + parseFlatBonus a.system.bonuses.ac.all

/-- `totalBonus = sysBonus + effectAdd` of `computeAC`. -/
def acTotalBonus (a : Actor) : ℚ :=
  acSysBonus a + (extractACFromEffects a).add

/-- The heuristic default tier of `computeAC`:
`acArmor + dexCapped + totalBonus`. -/
def acHeuristicTier (a : Actor) (d : Derived) : ℚ :=
  (computeACArmorParts a).acArmor + acDexCapped d.abilityMods.dex (acDexCap a)
    + acTotalBonus a

/-- The token context of the custom-formula path, in the source's insertion
(and hence substitution) order. -/
def acFormulaCtx (a : Actor) (d : Derived) : List (String × ℚ) :=
  [("@attributes.ac.armor", (computeACArmorParts a).acArmor),
   ("@attributes.ac.shield", (computeACArmorParts a).shieldTotal),
   ("@attributes.ac.base", 10),
   ("@attributes.ac.dex", acDexCapped d.abilityMods.dex (acDexCap a)),
   ("@attributes.ac.bonus", acTotalBonus a),
   ("@abilities.str.mod", d.abilityMods.str),
   ("@abilities.dex.mod", d.abilityMods.dex),
   ("@abilities.con.mod", d.abilityMods.con),
   ("@abilities.int.mod", d.abilityMods.int),
   ("@abilities.wis.mod", d.abilityMods.wis),
   ("@abilities.cha.mod", d.abilityMods.cha),
   ("@attributes.prof", d.prof)]

/-- Token substitution: `expr = expr.split(token).join(String(Number(val ?? 0)))`
for each context entry in order. -/
def substTokens (ctx : List (String × ℚ)) (f : String) : String :=
  ctx.foldl (fun e p => jsReplaceAll e p.1 (ratToString p.2)) f

/-- The custom-formula tier of `computeAC`: substitute, verify the safety
regex, evaluate; on success add the accumulated bonus unless the original
formula references the bonus token; on any failure fall back to the
heuristic. -/
def computeACFormula (a : Actor) (d : Derived) (f : String) : ℚ :=
  let expr := substTokens (acFormulaCtx a d) f
  if exprSafe expr then
    match evalArith expr with
    | some n => if jsIncludes f "@attributes.ac.bonus" then n else n + acTotalBonus a
    | none => acHeuristicTier a d
  else acHeuristicTier a d

/-- Tiers of `computeAC` after the explicit-value/flat returns: active-effect
override, then custom formula, then heuristic. -/
def computeACPost (a : Actor) (d : Derived) : ℚ :=
  match (extractACFromEffects a).override with
  | some ov => ov + acTotalBonus a
  | none =>
    if a.system.attributes.ac.calcMode = JSVal.str "custom" then
      match a.system.attributes.ac.formula with
      | .str f => computeACFormula a d f
      | _ => acHeuristicTier a d
    else acHeuristicTier a d

/-- `computeAC` of the source (the resolver of `src/unnamed/part_000`). -/
def computeAC (a : Actor) (d : Derived) : ℚ :=
  let ac := a.system.attributes.ac
  if isFiniteNum ac.value then jsNumOr0 ac.value
  else if isFiniteNum ac.flat then jsNumOr0 ac.flat
  else computeACPost a d


/-! ## Raw documents: an `items` field of any shape -/

/-- The raw `items` field of a parsed JSON document: an array, or any
non-array value. -/
inductive ItemsField where
  | arr (l : List (Option Item))
  | scalar (v : JSVal)
deriving DecidableEq

/-- A document whose `items` field is unconstrained, as `JSON.parse` can
deliver it.  The source reads it as `actor?.items || []`, so a falsy scalar
acts as `[]`; but a truthy non-array value is passed on unguarded — unlike
every effects/changes array, `items` never gets an `Array.isArray` test —
and reaches `items.filter(...)` (`totalLevel`, `computeACArmorParts`) or
`for (const it of items)` (`collectTransferEffects`), which throw a
`TypeError` on it. -/
structure ActorDoc where
  system : ActorSystem := {}
  items : ItemsField := .arr []
  effects : Option (List (Option Effect)) := none
deriving DecidableEq

/-- The `Actor` a raw document denotes once its `items` field is known to be
usable as the array `l`. -/
def ActorDoc.toActor (a : ActorDoc) (l : List (Option Item)) : Actor :=
  { system := a.system, items := l, effects := a.effects }

/-- `dnd5eDerived` on a raw document.  Its first step, `totalLevel`, calls
`items.filter` at once, so a truthy non-array `items` throws before any
result is produced (`.error ()`); a falsy one acts as the empty array. -/
def dnd5eDerivedDoc (a : ActorDoc) : Except Unit Derived :=
  match a.items with
  | .arr l => .ok (dnd5eDerived (a.toActor l))
  | .scalar v =>
    if jsTruthy v then .error () else .ok (dnd5eDerived (a.toActor []))

/-- `computeAC` on a raw document.  The explicit `ac.value` / `ac.flat`
tiers return before `items` is ever touched, so even a garbage `items`
field cannot stop them; from the effects/armour machinery on, a truthy
non-array `items` throws. -/
def computeACDoc (a : ActorDoc) (d : Derived) : Except Unit ℚ :=
  let ac := a.system.attributes.ac
  if isFiniteNum ac.value then .ok (jsNumOr0 ac.value)
  else if isFiniteNum ac.flat then .ok (jsNumOr0 ac.flat)
  else
    match a.items with
    | .arr l => .ok (computeACPost (a.toActor l) d)
    | .scalar v =>
      if jsTruthy v then .error () else .ok (computeACPost (a.toActor []) d)


/-! ## Claims about the basic calculators -/

/-- C7 counterexample: the claim says every non-numeric input yields 0, but
`null` coerces to `0` under `Number`, so `abilityMod(null)` is
`floor((0 - 10) / 2) = -5`, not 0. -/
theorem c7_abilityMod_null_counterexample :
    abilityMod JSVal.null = -5 ∧ abilityMod JSVal.null ≠ 0 := by decide

/-- C7 (amended): `abilityMod` returns `floor((n - 10) / 2)` where `n` is the
`Number` coercion of its input, and 0 exactly when that coercion is
non-finite; inputs like `null` that coerce to a finite number are not sent
to 0. -/
theorem c7_abilityMod_spec (v : JSVal) :
    (∀ q : ℚ, jsToNumber v = some q → abilityMod v = ((⌊(q - 10) / 2⌋ : ℤ) : ℚ))
    ∧ (jsToNumber v = none → abilityMod v = 0) := by
  constructor
  · intro q hq
    simp only [abilityMod, hq]
    rw [ratFloor_eq_intFloor]
  · intro h
    simp only [abilityMod, h]

/-- C8: `proficiencyBonus` is 0 for non-finite or non-positive levels,
`2 + floor((L - 1) / 4)` for `L ≥ 1`, hence 2 on `[1, 4]` and 3 on `[5, 8]`. -/
theorem c8_proficiencyBonus_spec :
    (∀ v : JSVal, jsToNumber v = none → proficiencyBonus v = 0)
    ∧ (∀ q : ℚ, q ≤ 0 → proficiencyBonus (JSVal.num q) = 0)
    ∧ (∀ q : ℚ, 1 ≤ q → proficiencyBonus (JSVal.num q) = 2 + ((⌊(q - 1) / 4⌋ : ℤ) : ℚ))
    ∧ (∀ q : ℚ, 1 ≤ q → q ≤ 4 → proficiencyBonus (JSVal.num q) = 2)
    ∧ (∀ q : ℚ, 5 ≤ q → q ≤ 8 → proficiencyBonus (JSVal.num q) = 3) := by
  have base : ∀ q : ℚ, 1 ≤ q →
      proficiencyBonus (JSVal.num q) = 2 + ((⌊(q - 1) / 4⌋ : ℤ) : ℚ) := by
    intro q hq
    have hq0 : ¬ q ≤ 0 := by linarith
    simp only [proficiencyBonus, jsToNumber, if_neg hq0]
    rw [ratFloor_eq_intFloor]
  refine ⟨?_, ?_, base, ?_, ?_⟩
  · intro v h
    simp only [proficiencyBonus, h]
  · intro q hq
    simp only [proficiencyBonus, jsToNumber, if_pos hq]
  · intro q h1 h4
    rw [base q h1]
    have : ⌊(q - 1) / 4⌋ = 0 := by
      rw [Int.floor_eq_zero_iff]
      simp only [Set.mem_Ico]
      constructor <;> linarith
    rw [this]; norm_num
  · intro q h5 h8
    have h1 : (1 : ℚ) ≤ q := by linarith
    rw [base q h1]
    have : ⌊(q - 1) / 4⌋ = 1 := by
      rw [Int.floor_eq_iff]
      constructor
      · push_cast; linarith
      · push_cast; linarith
    rw [this]; norm_num

/-- Modelled from the claim's words for C5 only: a dice pattern demanding "a
digit optionally preceded by digits, followed by the letter d and another
digit" — i.e. requiring at least one digit BEFORE the `d`, unlike the
source's regex `/[dD]\d/`. -/
def c5ClaimDicePattern : List Char → Bool
  | a :: b :: c :: rest =>
    (a.isDigit && (b == 'd' || b == 'D') && c.isDigit) || c5ClaimDicePattern (b :: c :: rest)
  | _ => false

/-- C5 counterexample: `"d4"` holds no dice pattern under the claim's
description (no digit precedes the `d`), so the claim predicts the
signed-integer sum `4`; the source's `/[dD]\d/` test fires and
`parseFlatBonus("d4")` is `0`. -/
theorem c5_parseFlatBonus_counterexample :
    parseFlatBonus (JSVal.str "d4") = 0
    ∧ c5ClaimDicePattern "d4".toList = false
    ∧ sumSignedInts "d4".toList = 4
    ∧ parseFlatBonus (JSVal.str "d4") ≠ sumSignedInts "d4".toList := by decide

/-- C5 (amended): `parseFlatBonus` returns a finite numeric input unchanged
and 0 for nullish input; a string is rejected (0) when it contains the
letter `d` (case-insensitive) immediately followed by a digit — no digit
before the `d` is required — and otherwise yields the sum of every signed
integer substring; the quoted examples hold. -/
theorem c5_parseFlatBonus_spec :
    (∀ q : ℚ, parseFlatBonus (JSVal.num q) = q)
    ∧ parseFlatBonus JSVal.null = 0
    ∧ parseFlatBonus JSVal.undef = 0
    ∧ (∀ s : String, containsDice (jsTrim s).toList = true → parseFlatBonus (JSVal.str s) = 0)
    ∧ (∀ s : String, containsDice (jsTrim s).toList = false →
        parseFlatBonus (JSVal.str s) = sumSignedInts (jsTrim s).toList)
    ∧ parseFlatBonus (JSVal.str "1d4") = 0
    ∧ parseFlatBonus (JSVal.str "+2") = 2
    ∧ parseFlatBonus (JSVal.str "-1 +3") = 2 := by
  refine ⟨?_, by decide, by decide, ?_, ?_, by decide, by decide, by decide⟩
  · intro q; rfl
  · intro s h
    simp only [parseFlatBonus, jsNullish, jsToString, Bool.false_eq_true, if_false]
    by_cases he : (jsTrim s).toList = []
    · rw [if_pos he]
    · rw [if_neg he, if_pos h]
  · intro s h
    simp only [parseFlatBonus, jsNullish, jsToString, Bool.false_eq_true, if_false]
    by_cases he : (jsTrim s).toList = []
    · rw [if_pos he, he]
      decide
    · rw [if_neg he, if_neg (by rw [h]; exact Bool.false_ne_true)]

/-- C10: a declared Dex cap that is neither nullish nor the empty string but
fails `Number` coercion is treated as cap 0 (`Number(dexCap) || 0`), so the
Dex contribution becomes `min(dexFull, 0)`. -/
theorem c10_dexCap_nan (dexFull : ℚ) (cap : JSVal)
    (h1 : jsNullish cap = false) (h2 : cap ≠ JSVal.str "")
    (h3 : jsToNumber cap = none) :
    acDexCapped dexFull cap = min dexFull 0 := by
  simp only [acDexCapped, h1, h3, decide_eq_false h2, Bool.or_self,
    Bool.false_eq_true, if_false, Option.getD_none]

/-- C10 witness: a non-numeric string cap (`"heavy"`) with full Dex modifier
`+4` caps the contribution at 0. -/
theorem c10_dexCap_nan_witness : acDexCapped 4 (JSVal.str "heavy") = 0 := by
  have h := c10_dexCap_nan 4 (JSVal.str "heavy") rfl (by decide) (by decide)
  rw [h]; decide

/-- C3: a finite numeric `attributes.ac.value` is returned by `computeAC`
exactly as is (and, failing that, a finite numeric `attributes.ac.flat`),
whatever else the document carries. -/
theorem c3_explicit_ac (a : Actor) (d : Derived) :
    (∀ q : ℚ, a.system.attributes.ac.value = JSVal.num q → computeAC a d = q)
    ∧ (isFiniteNum a.system.attributes.ac.value = false →
        ∀ q : ℚ, a.system.attributes.ac.flat = JSVal.num q → computeAC a d = q)
    := by
  constructor
  · intro q h
    simp only [computeAC, h, isFiniteNum, jsNumOr0, if_true]
  · intro hv q h
    simp only [computeAC, hv, Bool.false_eq_true, if_false]
    simp only [h, isFiniteNum, jsNumOr0, if_true]

/-- A document for the C3 witness: an explicit AC value of 17 next to
equipment and effects that must all be ignored. -/
def c3Actor : Actor :=
  { system := { abilities := { dex := { value := JSVal.num 18 } }
                attributes := { ac := { value := JSVal.num 17, bonus := JSVal.num 3 } } }
    items := [some { type := JSVal.str "equipment"
                     system := { equipped := JSVal.bool true
                                 armor := { value := JSVal.num 18 } } }]
    effects := some [some { changes := some [some { key := JSVal.str "system.attributes.ac.value"
                                                    mode := JSVal.num 5
                                                    value := JSVal.num 20 }] }] }

/-- C3 witness: the explicit value 17 wins over plate armour, a +3 bonus and
an override effect. -/
theorem c3_explicit_ac_witness : computeAC c3Actor (dnd5eDerived c3Actor) = 17 :=
  (c3_explicit_ac c3Actor (dnd5eDerived c3Actor)).1 17 rfl


/-! ## C2: the per-change AC extraction step -/

/-- If a non-empty list is a Boolean prefix of `r`, the heads agree. -/
theorem isPrefixOf_head_eq (p r : List Char) (h : p.isPrefixOf r = true)
    (hne : p.head? ≠ none) : r.head? = p.head? := by
  cases p with
  | nil => simp at hne
  | cons a t =>
    cases r with
    | nil => simp [List.isPrefixOf] at h
    | cons x xs =>
      simp only [List.isPrefixOf, Bool.and_eq_true, beq_iff_eq] at h
      simp [h.1]

/-- A key matching the AC-bonus pattern cannot also match the AC value/flat
pattern (the lowered suffixes end in different characters). -/
theorem isACBonusKey_not_isACValueKey (k : String) (hb : isACBonusKey k = true) :
    isACValueKey k = false := by
  by_contra hv'
  rw [Bool.not_eq_false] at hv'
  unfold isACValueKey endsWithCI at hv'
  unfold isACBonusKey endsWithCI at hb
  rw [Bool.or_eq_true] at hv'
  simp only [List.isSuffixOf] at hb hv'
  have h1 := isPrefixOf_head_eq _ _ hb (by decide)
  rcases hv' with hv | hv
  · have h2 := isPrefixOf_head_eq _ _ hv (by decide)
    rw [h1] at h2
    exact absurd h2 (by decide)
  · have h2 := isPrefixOf_head_eq _ _ hv (by decide)
    rw [h1] at h2
    exact absurd h2 (by decide)

/-- C2: the dispositions of one effect change in `extractACFromEffects`:
an override-mode change on the AC value/flat key replaces the override; an
add-mode change on that key accumulates; an add-mode change on the AC bonus
key accumulates; an override-mode change on the bonus key REPLACES the
additive total (not the override); and a change with any other mode, or any
other key, changes nothing. -/
theorem c2_applyACChange_cases (st : ACEffects) (ch : Change) :
    (isACValueKey (normalizeKey (safeText ch.key)) = true →
      acChangeMode ch = some AE_MODES_OVERRIDE →
      applyACChange st (some ch) = { add := st.add, override := some (parseFlatBonus ch.value) })
    ∧ (isACValueKey (normalizeKey (safeText ch.key)) = true →
      acChangeMode ch = some AE_MODES_ADD →
      applyACChange st (some ch) = { add := st.add + parseFlatBonus ch.value, override := st.override })
    ∧ (isACBonusKey (normalizeKey (safeText ch.key)) = true →
      acChangeMode ch = some AE_MODES_ADD →
      applyACChange st (some ch) = { add := st.add + parseFlatBonus ch.value, override := st.override })
    ∧ (isACBonusKey (normalizeKey (safeText ch.key)) = true →
      acChangeMode ch = some AE_MODES_OVERRIDE →
      applyACChange st (some ch) = { add := parseFlatBonus ch.value, override := st.override })
    ∧ (acChangeMode ch ≠ some AE_MODES_ADD → acChangeMode ch ≠ some AE_MODES_OVERRIDE →
      applyACChange st (some ch) = st)
    ∧ (isACValueKey (normalizeKey (safeText ch.key)) = false →
      isACBonusKey (normalizeKey (safeText ch.key)) = false →
      applyACChange st (some ch) = st) := by
  have hmode : AE_MODES_ADD ≠ AE_MODES_OVERRIDE := by
    unfold AE_MODES_ADD AE_MODES_OVERRIDE; norm_num
  refine ⟨?_, ?_, ?_, ?_, ?_, ?_⟩
  · intro hk hm
    by_cases hke : safeText ch.key = ""
    · rw [hke] at hk; exact absurd hk (by decide)
    · simp only [applyACChange, if_neg hke, hk, if_true, if_pos hm]
  · intro hk hm
    by_cases hke : safeText ch.key = ""
    · rw [hke] at hk; exact absurd hk (by decide)
    · have hno : ¬ acChangeMode ch = some AE_MODES_OVERRIDE := by
        rw [hm]; intro hcon
        exact hmode (Option.some.inj hcon)
      simp only [applyACChange, if_neg hke, hk, if_true, if_neg hno, if_pos hm]
  · intro hk hm
    by_cases hke : safeText ch.key = ""
    · rw [hke] at hk; exact absurd hk (by decide)
    · have hkv := isACBonusKey_not_isACValueKey _ hk
      simp only [applyACChange, if_neg hke, hkv, hk, Bool.false_eq_true, if_false, if_true,
        if_pos hm]
  · intro hk hm
    by_cases hke : safeText ch.key = ""
    · rw [hke] at hk; exact absurd hk (by decide)
    · have hkv := isACBonusKey_not_isACValueKey _ hk
      have hno : ¬ acChangeMode ch = some AE_MODES_ADD := by
        rw [hm]; intro hcon
        exact hmode (Option.some.inj hcon).symm
      simp only [applyACChange, if_neg hke, hkv, hk, Bool.false_eq_true, if_false, if_true,
        if_neg hno, if_pos hm]
  · intro hA hO
    simp only [applyACChange]
    split_ifs <;> rfl
  · intro hv hb
    simp only [applyACChange, hv, hb, Bool.false_eq_true, if_false]
    split_ifs <;> rfl

/-- C2 witness: an override-mode change on `system.attributes.ac.value`
replaces the override and leaves the additive total alone. -/
theorem c2_applyACChange_witness :
    applyACChange { add := 3, override := none }
        (some { key := JSVal.str "system.attributes.ac.value"
                mode := JSVal.num 5
                value := JSVal.num 20 })
      = { add := 3, override := some 20 } := by
  have h := (c2_applyACChange_cases { add := 3, override := none }
      { key := JSVal.str "system.attributes.ac.value"
        mode := JSVal.num 5
        value := JSVal.num 20 }).1 (by decide) (by decide)
  rw [h]; decide


/-! ## C4: the custom-formula path -/

/-- C4: in the custom-formula path (no explicit value/flat, no effect
override, calc mode `"custom"`, a string formula): a substituted string that
fails the arithmetic-safety check, or fails to evaluate, falls back to the
heuristic tier; a successful evaluation returns the value, with the
accumulated bonus added on top exactly when the original formula does not
reference the `@attributes.ac.bonus` token. -/
theorem c4_custom_formula (a : Actor) (d : Derived)
    (h1 : isFiniteNum a.system.attributes.ac.value = false)
    (h2 : isFiniteNum a.system.attributes.ac.flat = false)
    (h3 : (extractACFromEffects a).override = none)
    (h4 : a.system.attributes.ac.calcMode = JSVal.str "custom")
    (f : String) (h5 : a.system.attributes.ac.formula = JSVal.str f) :
    (exprSafe (substTokens (acFormulaCtx a d) f) = false →
      computeAC a d = acHeuristicTier a d)
    ∧ (evalArith (substTokens (acFormulaCtx a d) f) = none →
      computeAC a d = acHeuristicTier a d)
    ∧ (∀ n : ℚ, exprSafe (substTokens (acFormulaCtx a d) f) = true →
      evalArith (substTokens (acFormulaCtx a d) f) = some n →
      computeAC a d =
        if jsIncludes f "@attributes.ac.bonus" = true then n else n + acTotalBonus a) := by
  have key : computeAC a d = computeACFormula a d f := by
    simp only [computeAC, h1, h2, Bool.false_eq_true, if_false, computeACPost, h3, h4,
      if_pos rfl, h5, if_true]
  refine ⟨?_, ?_, ?_⟩
  · intro hs
    rw [key]
    simp only [computeACFormula, hs, Bool.false_eq_true, if_false]
  · intro he
    rw [key]
    by_cases hs : exprSafe (substTokens (acFormulaCtx a d) f) = true
    · simp only [computeACFormula, hs, if_true, he]
    · rw [Bool.not_eq_true] at hs
      simp only [computeACFormula, hs, Bool.false_eq_true, if_false]
  · intro n hs he
    rw [key]
    simp only [computeACFormula, hs, if_true, he]

/-- A document for the C4 witness: a custom formula over the armour and
capped-Dex tokens, not referencing the bonus token, next to a parsed flat
bonus of +1. -/
def c4Actor : Actor :=
  { system := { attributes := { ac :=
      { calcMode := JSVal.str "custom"
        formula := JSVal.str "@attributes.ac.armor + @attributes.ac.dex"
        bonus := JSVal.str "+1" } } } }

/-- C4 witness: the formula evaluates to `10 + 0 = 10` and the +1 bonus is
added on top because the formula does not mention the bonus token. -/
theorem c4_custom_formula_witness : computeAC c4Actor (dnd5eDerived c4Actor) = 11 := by
  have h := (c4_custom_formula c4Actor (dnd5eDerived c4Actor) rfl rfl rfl rfl
      "@attributes.ac.armor + @attributes.ac.dex" rfl).2.2 10 (by decide) (by decide)
  rw [h]; decide


/-! ## C6: skill totals and passive perception -/

/-- Last-wins object lookup commutes with a value-wise map. -/
theorem jsObjGet_map {A B : Type} (g : A → B) (l : List (String × A)) (k : String) :
    jsObjGet (l.map fun p => (p.1, g p.2)) k = (jsObjGet l k).map g := by
  induction l with
  | nil => rfl
  | cons p rest ih =>
    simp only [List.map_cons, jsObjGet, ih]
    cases jsObjGet rest k with
    | some v => rfl
    | none =>
      by_cases h : p.1 = k
      · simp [h]
      · simp [h]

/-- `base + profPart + bonus` when the guard did not leak an inherited
member: a plain rational sum. -/
theorem skillTotal_not_inherited (a : Actor) (mods : AbilityMods) (prof : ℚ)
    (sk : Skill)
    (hni : ∀ m : String, skillAbilityBase mods sk.ability ≠ AbilityBase.inherited m) :
    skillTotal a mods prof sk =
      SkillTotalVal.num (abilityBaseQ (skillAbilityBase mods sk.ability)
        + profComponent sk.value prof
        + (parseFlatBonus sk.bonuses.check
           + parseFlatBonus a.system.bonuses.abilities.skill
           + parseFlatBonus a.system.bonuses.skills.check)) := by
  simp only [skillTotal]
  cases hb : skillAbilityBase mods sk.ability with
  | mod q => simp [abilityBaseQ]
  | absent => simp [abilityBaseQ]
  | inherited m => exact absurd hb (hni m)

/-- `base + profPart + bonus` when the guard leaked an inherited member:
left-associated JS `+` concatenates. -/
theorem skillTotal_inherited (a : Actor) (mods : AbilityMods) (prof : ℚ)
    (sk : Skill) (m : String)
    (hb : skillAbilityBase mods sk.ability = AbilityBase.inherited m) :
    skillTotal a mods prof sk =
      (if m = "__proto__" then
        SkillTotalVal.str ("[object Object]"
          ++ ratToString (profComponent sk.value prof)
          ++ ratToString (parseFlatBonus sk.bonuses.check
             + parseFlatBonus a.system.bonuses.abilities.skill
             + parseFlatBonus a.system.bonuses.skills.check))
      else
        SkillTotalVal.nativeFunStr "" m
          (ratToString (profComponent sk.value prof)
           ++ ratToString (parseFlatBonus sk.bonuses.check
              + parseFlatBonus a.system.bonuses.abilities.skill
              + parseFlatBonus a.system.bonuses.skills.check))) := by
  simp only [skillTotal, hb]

/-- The C6 counterexample document: perception's governing-ability key is
the string "__proto__", which is truthy and — through the prototype chain —
not null under `abilityMods[ability] != null`. -/
def c6Actor : Actor :=
  { system := { skills := [("prc", { ability := JSVal.str "__proto__" })] } }

/-- C6 counterexample: the claim says an unrecognized governing ability
contributes 0 and every total is a number, but `abilityMods["__proto__"]`
is `Object.prototype`, the guard passes it, and `base + profPart + bonus`
string-concatenates: the perception total is the string
"[object Object]00" (not any number), and passive perception becomes
"10[object Object]0000". -/
theorem c6_proto_leak_counterexample :
    jsObjGet (dnd5eDerived c6Actor).skillTotals "prc"
      = some (SkillTotalVal.str "[object Object]00")
    ∧ (dnd5eDerived c6Actor).passivePrc = SkillTotalVal.str "10[object Object]0000"
    ∧ jsObjGet (dnd5eDerived c6Actor).skillTotals "prc"
        ≠ some (SkillTotalVal.num 0) := by decide

/-- C6 (amended): a skill entry whose governing-ability base is not an
inherited `Object.prototype` member gets the numeric total: ability base
(the modifier, or 0 when the key is falsy or names no property at all) plus
the proficiency component (0.5 giving `floor(prof / 2)`, 1 giving `prof`, 2
giving `2 * prof`, any other positive rank giving `floor(rank * prof)`)
plus the three flat-bonus-parsed bonus fields; when the key DOES name an
inherited member the total is the concatenated string
`String(base) ++ String(profPart) ++ String(bonus)`; and passive perception
is `10 + (perception total) + (two flat-bonus-parsed passive bonuses)` by
the same left-associated JS `+`, numeric exactly when the perception total
is. -/
theorem c6_skill_totals (a : Actor) :
    (∀ (k : String) (sk : Skill), jsObjGet a.system.skills k = some sk →
      (∀ m : String,
          skillAbilityBase (dnd5eDerived a).abilityMods sk.ability
            ≠ AbilityBase.inherited m) →
      jsObjGet (dnd5eDerived a).skillTotals k =
        some (SkillTotalVal.num
          (abilityBaseQ (skillAbilityBase (dnd5eDerived a).abilityMods sk.ability)
            + profComponent sk.value (dnd5eDerived a).prof
            + (parseFlatBonus sk.bonuses.check
               + parseFlatBonus a.system.bonuses.abilities.skill
               + parseFlatBonus a.system.bonuses.skills.check))))
    ∧ (∀ (k : String) (sk : Skill) (m : String),
        jsObjGet a.system.skills k = some sk →
        skillAbilityBase (dnd5eDerived a).abilityMods sk.ability
          = AbilityBase.inherited m →
        jsObjGet (dnd5eDerived a).skillTotals k =
          some (if m = "__proto__" then
              SkillTotalVal.str ("[object Object]"
                ++ ratToString (profComponent sk.value (dnd5eDerived a).prof)
                ++ ratToString (parseFlatBonus sk.bonuses.check
                   + parseFlatBonus a.system.bonuses.abilities.skill
                   + parseFlatBonus a.system.bonuses.skills.check))
            else
              SkillTotalVal.nativeFunStr "" m
                (ratToString (profComponent sk.value (dnd5eDerived a).prof)
                 ++ ratToString (parseFlatBonus sk.bonuses.check
                    + parseFlatBonus a.system.bonuses.abilities.skill
                    + parseFlatBonus a.system.bonuses.skills.check))))
    ∧ (∀ prof : ℚ,
        profComponent (JSVal.num (1 / 2)) prof = ((⌊prof / 2⌋ : ℤ) : ℚ)
        ∧ profComponent (JSVal.num 1) prof = prof
        ∧ profComponent (JSVal.num 2) prof = 2 * prof
        ∧ ∀ r : ℚ, 0 < r → r ≠ 1 / 2 → r ≠ 1 → r ≠ 2 →
            profComponent (JSVal.num r) prof = ((⌊r * prof⌋ : ℤ) : ℚ))
    ∧ (∀ mods : AbilityMods, skillAbilityBase mods JSVal.undef = AbilityBase.absent)
    ∧ (∀ (mods : AbilityMods) (s : String),
        s ≠ "str" → s ≠ "dex" → s ≠ "con" → s ≠ "int" → s ≠ "wis" → s ≠ "cha" →
        objectProtoMembers.contains s = false →
        skillAbilityBase mods (JSVal.str s) = AbilityBase.absent)
    ∧ abilityBaseQ AbilityBase.absent = 0
    ∧ (∀ q p1 p2 : ℚ,
        passivePrcVal (SkillTotalVal.num q) p1 p2 = SkillTotalVal.num (10 + q + p1 + p2))
    ∧ ((dnd5eDerived a).passivePrc
        = passivePrcVal
            ((jsObjGet (dnd5eDerived a).skillTotals "prc").getD (SkillTotalVal.num 0))
            (parseFlatBonus (((jsObjGet a.system.skills "prc").map
                fun sk => sk.bonuses.passive).getD JSVal.undef))
            (parseFlatBonus a.system.bonuses.skills.passive)) := by
  refine ⟨?_, ?_, ?_, ?_, ?_, rfl, ?_, ?_⟩
  · intro k sk h hni
    simp only [dnd5eDerived] at hni ⊢
    rw [jsObjGet_map, h, Option.map_some', skillTotal_not_inherited a _ _ sk hni]
  · intro k sk m h hb
    simp only [dnd5eDerived] at hb ⊢
    rw [jsObjGet_map, h, Option.map_some', skillTotal_inherited a _ _ sk m hb]
  · intro prof
    have base : ∀ r : ℚ, jsToNumber (nnOr (JSVal.num r) (JSVal.num 0)) = some r := by
      intro r; rfl
    refine ⟨?_, ?_, ?_, ?_⟩
    · simp only [profComponent, base]
      norm_num [ratFloor_eq_intFloor]
    · simp only [profComponent, base]
      norm_num
    · simp only [profComponent, base]
      norm_num
    · intro r h0 hh h1 h2
      simp only [profComponent, base]
      rw [if_neg (by linarith), if_neg hh, if_neg h1, if_neg h2, ratFloor_eq_intFloor]
  · intro mods; rfl
  · intro mods s h1 h2 h3 h4 h5 h6 h7
    simp only [skillAbilityBase, jsToString]
    by_cases ht : jsTruthy (JSVal.str s) = true
    · rw [if_pos ht, if_neg h1, if_neg h2, if_neg h3, if_neg h4, if_neg h5, if_neg h6, h7]
      rfl
    · rw [if_neg ht]
  · intro q p1 p2; rfl
  · simp only [dnd5eDerived]


/-! ## C9: defensive totality -/

/-- One of `computeAC`'s five tiers (explicit value, flat, override +
bonus, evaluated formula with or without the added-on bonus, heuristic)
always yields the rational result, and `dnd5eDerived` emits one total per
skill key — the fallback-chain exhaustiveness underlying C9. -/
theorem computeAC_tier_exhaustive (a : Actor) :
    (computeAC a (dnd5eDerived a) = jsNumOr0 a.system.attributes.ac.value
     ∨ computeAC a (dnd5eDerived a) = jsNumOr0 a.system.attributes.ac.flat
     ∨ (∃ ov : ℚ, (extractACFromEffects a).override = some ov ∧
          computeAC a (dnd5eDerived a) = ov + acTotalBonus a)
     ∨ (∃ f : String, a.system.attributes.ac.formula = JSVal.str f ∧
          ∃ n : ℚ, evalArith (substTokens (acFormulaCtx a (dnd5eDerived a)) f) = some n ∧
            (computeAC a (dnd5eDerived a) = n ∨
             computeAC a (dnd5eDerived a) = n + acTotalBonus a))
     ∨ computeAC a (dnd5eDerived a) = acHeuristicTier a (dnd5eDerived a))
    ∧ (dnd5eDerived a).skillTotals.map Prod.fst = a.system.skills.map Prod.fst := by
  constructor
  · set d := dnd5eDerived a with hd
    cases hv : isFiniteNum a.system.attributes.ac.value with
    | true =>
      left
      simp only [computeAC, hv, if_true]
    | false =>
      cases hf : isFiniteNum a.system.attributes.ac.flat with
      | true =>
        right; left
        simp only [computeAC, hv, hf, Bool.false_eq_true, if_false, if_true]
      | false =>
        have hpost : computeAC a d = computeACPost a d := by
          simp only [computeAC, hv, hf, Bool.false_eq_true, if_false]
        cases ho : (extractACFromEffects a).override with
        | some ov =>
          right; right; left
          exact ⟨ov, rfl, by simp only [hpost, computeACPost, ho]⟩
        | none =>
          by_cases hc : a.system.attributes.ac.calcMode = JSVal.str "custom"
          · cases hform : a.system.attributes.ac.formula with
            | str f =>
              have hform' : computeAC a d = computeACFormula a d f := by
                simp only [hpost, computeACPost, ho, hc, if_pos rfl, hform, if_true]
              cases hs : exprSafe (substTokens (acFormulaCtx a d) f) with
              | false =>
                right; right; right; right
                simp only [hform', computeACFormula, hs, Bool.false_eq_true, if_false]
              | true =>
                cases he : evalArith (substTokens (acFormulaCtx a d) f) with
                | none =>
                  right; right; right; right
                  simp only [hform', computeACFormula, hs, if_true, he]
                | some n =>
                  right; right; right; left
                  refine ⟨f, rfl, n, he, ?_⟩
                  cases hinc : jsIncludes f "@attributes.ac.bonus" with
                  | true =>
                    left
                    simp only [hform', computeACFormula, hs, if_true, he, hinc]
                  | false =>
                    right
                    simp only [hform', computeACFormula, hs, if_true, he, hinc,
                      Bool.false_eq_true, if_false]
            | num q =>
              right; right; right; right
              simp only [hpost, computeACPost, ho, hc, if_pos rfl, hform, if_true]
            | bool b =>
              right; right; right; right
              simp only [hpost, computeACPost, ho, hc, if_pos rfl, hform, if_true]
            | null =>
              right; right; right; right
              simp only [hpost, computeACPost, ho, hc, if_pos rfl, hform, if_true]
            | undef =>
              right; right; right; right
              simp only [hpost, computeACPost, ho, hc, if_pos rfl, hform, if_true]
            | objv =>
              right; right; right; right
              simp only [hpost, computeACPost, ho, hc, if_pos rfl, hform, if_true]
          · right; right; right; right
            simp only [hpost, computeACPost, ho, if_neg hc]
  · simp only [dnd5eDerived, List.map_map]
    rfl


/-- C9 counterexample: the claim says mistyped fields never make either
computation raise, but `items` is the one field the source never
`Array.isArray`-guards: a document whose `items` is a (truthy) plain object
throws a `TypeError` in `totalLevel`'s `items.filter` before `dnd5eDerived`
produces anything, and in the armour machinery of `computeAC` (its explicit
tiers being absent here). -/
theorem c9_nonarray_items_counterexample :
    dnd5eDerivedDoc { items := ItemsField.scalar JSVal.objv } = Except.error ()
    ∧ computeACDoc { items := ItemsField.scalar JSVal.objv } (dnd5eDerived {})
        = Except.error () := ⟨rfl, rfl⟩

/-- C9 (amended): on a document whose `items` field is an array — entries
nullable, every scalar field free to be missing, null or mistyped —
nothing raises: both raw-document wrappers return `ok` of the total
functions on the projected actor, `computeAC` lands in one of its five
tiers (explicit value, flat, override + bonus, evaluated formula with or
without the added-on bonus, heuristic), each a total rational, and
`dnd5eDerived` produces one total for every key of the skills mapping.
A truthy non-array `items` is the exception the counterexample exhibits. -/
theorem c9_array_items_totality (a : ActorDoc) (l : List (Option Item))
    (h : a.items = ItemsField.arr l) :
    dnd5eDerivedDoc a = Except.ok (dnd5eDerived (a.toActor l))
    ∧ (∀ d : Derived, computeACDoc a d = Except.ok (computeAC (a.toActor l) d))
    ∧ (computeAC (a.toActor l) (dnd5eDerived (a.toActor l))
         = jsNumOr0 a.system.attributes.ac.value
       ∨ computeAC (a.toActor l) (dnd5eDerived (a.toActor l))
         = jsNumOr0 a.system.attributes.ac.flat
       ∨ (∃ ov : ℚ, (extractACFromEffects (a.toActor l)).override = some ov ∧
            computeAC (a.toActor l) (dnd5eDerived (a.toActor l))
              = ov + acTotalBonus (a.toActor l))
       ∨ (∃ f : String, a.system.attributes.ac.formula = JSVal.str f ∧
            ∃ n : ℚ, evalArith (substTokens
                (acFormulaCtx (a.toActor l) (dnd5eDerived (a.toActor l))) f) = some n ∧
              (computeAC (a.toActor l) (dnd5eDerived (a.toActor l)) = n ∨
               computeAC (a.toActor l) (dnd5eDerived (a.toActor l))
                 = n + acTotalBonus (a.toActor l)))
       ∨ computeAC (a.toActor l) (dnd5eDerived (a.toActor l))
         = acHeuristicTier (a.toActor l) (dnd5eDerived (a.toActor l)))
    ∧ (dnd5eDerived (a.toActor l)).skillTotals.map Prod.fst
        = (a.toActor l).system.skills.map Prod.fst := by
  refine ⟨?_, ?_, (computeAC_tier_exhaustive (a.toActor l)).1, (computeAC_tier_exhaustive (a.toActor l)).2⟩
  · simp only [dnd5eDerivedDoc, h]
  · intro d
    simp only [computeACDoc, computeAC, h, ActorDoc.toActor]
    split_ifs <;> rfl

/-- The C9 witness document: empty array items, Dex 14, no armour — the
heuristic tier gives 10 + 2. -/
def c9WitnessDoc : ActorDoc :=
  { system := { abilities := { dex := { value := JSVal.num 14 } } }
    items := ItemsField.arr [] }

/-- C9 witness: the guarded-totality theorem applied at a concrete
array-items document. -/
theorem c9_array_items_totality_witness :
    computeACDoc c9WitnessDoc (dnd5eDerived (c9WitnessDoc.toActor []))
      = Except.ok 12 := by
  have h := (c9_array_items_totality c9WitnessDoc [] rfl).2.1
      (dnd5eDerived (c9WitnessDoc.toActor []))
  rw [h]
  exact congrArg Except.ok (by decide)


/-! ## C1: which effects contribute -/

/-- The disabled actor-attached effect of the C1 counterexample: it carries
a +5 add-mode change on the AC bonus key. -/
def c1Effect : Effect :=
  { disabled := JSVal.bool true
    changes := some [some { key := JSVal.str "system.attributes.ac.bonus"
                            mode := JSVal.num 2
                            value := JSVal.num 5 }] }

/-- The C1 counterexample document: the disabled effect sits directly on the
actor. -/
def c1Actor : Actor :=
  { effects := some [some c1Effect] }

/-- C1 counterexample: a DISABLED effect attached directly to the character
is still collected and its +5 change flows into the AC extraction — the
claim's "only if it is not disabled" fails for actor-attached effects
(`collectTransferEffects` pushes the actor's own array wholesale). -/
theorem c1_disabled_direct_effect_counterexample :
    some c1Effect ∈ collectTransferEffects c1Actor
    ∧ jsTruthy c1Effect.disabled = true
    ∧ extractACFromEffects c1Actor = { add := 5, override := none }
    ∧ extractACFromEffects c1Actor ≠ { add := 0, override := none } := by decide

/-- Membership in one item's contribution to `collectTransferEffects`. -/
theorem mem_itemTransferEffects (oit : Option Item) (ef : Effect) :
    some ef ∈ itemTransferEffects oit ↔
      (isItemActiveForBonuses oit = true ∧
        ∃ it, oit = some it ∧ ∃ le, it.effects = some le ∧ some ef ∈ le ∧
          keepTransferEffect (some ef) = true) := by
  unfold itemTransferEffects
  cases h : isItemActiveForBonuses oit with
  | false =>
    simp only [Bool.false_eq_true, if_false, List.not_mem_nil, false_iff]
    rintro ⟨hcon, -⟩
    exact absurd hcon (by decide)
  | true =>
    rw [if_pos rfl]
    cases oit with
    | none =>
      constructor
      · intro hmem; exact absurd hmem (List.not_mem_nil _)
      · rintro ⟨-, it, hit, -⟩; exact Option.noConfusion hit
    | some it =>
      show some ef ∈ (match it.effects with
          | some l => List.filter keepTransferEffect l
          | none => ([] : List (Option Effect))) ↔ _
      cases hef : it.effects with
      | none =>
        constructor
        · intro hmem; exact absurd hmem (List.not_mem_nil _)
        · rintro ⟨-, it', hit, le', hle, -, -⟩
          obtain rfl : it' = it := (Option.some.inj hit).symm
          rw [hef] at hle
          exact Option.noConfusion hle
      | some le =>
        constructor
        · intro hmem
          rw [List.mem_filter] at hmem
          exact ⟨rfl, it, rfl, le, hef, hmem.1, hmem.2⟩
        · rintro ⟨-, it', hit, le', hle, hmem, hkeep⟩
          obtain rfl : it' = it := (Option.some.inj hit).symm
          rw [hef] at hle
          obtain rfl : le' = le := (Option.some.inj hle).symm
          exact List.mem_filter.mpr ⟨hmem, hkeep⟩

/-- C1 (amended): an effect contributes to the AC extraction exactly when it
appears in the actor's own effects array (its disabled flag notwithstanding),
or it belongs to the effects array of an equipped-or-attuned item, is not
disabled, and carries a transfer flag (`transfer` or `flags.dae.transfer`). -/
theorem c1_collectTransferEffects_mem (a : Actor) (ef : Effect) :
    some ef ∈ collectTransferEffects a ↔
      ((∃ l, a.effects = some l ∧ some ef ∈ l)
       ∨ (∃ oit, oit ∈ a.items ∧ isItemActiveForBonuses oit = true ∧
            (∃ it, oit = some it ∧ ∃ le, it.effects = some le ∧ some ef ∈ le) ∧
            jsTruthy ef.disabled = false ∧
            (jsTruthy ef.transfer = true ∨ jsTruthy ef.flagsDaeTransfer = true))) := by
  unfold collectTransferEffects
  rw [List.mem_append]
  have hbase : some ef ∈ a.effects.getD [] ↔ ∃ l, a.effects = some l ∧ some ef ∈ l := by
    cases h : a.effects with
    | none => simp [h]
    | some l => simp [h]
  have hitems : some ef ∈ (a.items.map itemTransferEffects).flatten ↔
      ∃ oit, oit ∈ a.items ∧ some ef ∈ itemTransferEffects oit := by
    rw [List.mem_flatten]
    constructor
    · rintro ⟨l', hl', hmem⟩
      rcases List.mem_map.mp hl' with ⟨oit, hoit, rfl⟩
      exact ⟨oit, hoit, hmem⟩
    · rintro ⟨oit, hoit, hmem⟩
      exact ⟨itemTransferEffects oit, List.mem_map.mpr ⟨oit, hoit, rfl⟩, hmem⟩
  rw [hbase, hitems]
  have hkeep : keepTransferEffect (some ef) = true ↔
      (jsTruthy ef.disabled = false ∧
        (jsTruthy ef.transfer = true ∨ jsTruthy ef.flagsDaeTransfer = true)) := by
    simp [keepTransferEffect, Bool.and_eq_true, Bool.or_eq_true, Bool.not_eq_true']
  constructor
  · rintro (h | ⟨oit, hoit, hmem⟩)
    · exact Or.inl h
    · rcases (mem_itemTransferEffects oit ef).mp hmem with
        ⟨hact, it, hit, le, hle, hm, hk⟩
      exact Or.inr ⟨oit, hoit, hact, ⟨it, hit, le, hle, hm⟩, (hkeep.mp hk)⟩
  · rintro (h | ⟨oit, hoit, hact, ⟨it, hit, le, hle, hm⟩, hdis, htr⟩)
    · exact Or.inl h
    · refine Or.inr ⟨oit, hoit, ?_⟩
      exact (mem_itemTransferEffects oit ef).mpr
        ⟨hact, it, hit, le, hle, hm, hkeep.mpr ⟨hdis, htr⟩⟩


end FCV
